import Mathlib

/-!
# Pulse dashboard — verification of the acquisition/caching layer,
# alert state machine and history store

Shallow embedding of the core of `server.js` (the alert worker, the
bot-status revalidating cache, and the JSONL history store with its
bucketed range query), together with theorems settling the frozen
claims about it.

Conventions:
* JS timestamps (`Date.now()`) are modelled as `Int` milliseconds.
* JS numbers that only ever hold rounded integers (`Math.round` output,
  thresholds) are `Int`; values that are averaged are `ℚ`.
* A JS value that may be `null`/`undefined` is an `Option`;
  `x ?? 0` becomes `(x).getD 0`.
-/

namespace Pulse

/-- An entry of `snapshot.services` (`getSystemdServices` output):
`{ name, active }` (uptime is irrelevant to rule evaluation). -/
structure ServiceState where
  name : String
  active : Bool
  deriving DecidableEq, Repr

/-- An entry of `snapshot.docker` (`getDockerContainers` output):
`{ name, running }`. -/
structure ContainerState where
  name : String
  running : Bool
  deriving DecidableEq, Repr

/-- An entry of `snapshot.bots` (`getBotStatus` output): `{ name, online }`. -/
structure BotState where
  name : String
  online : Bool
  deriving DecidableEq, Repr

/-- `lastMetricSnapshot` as assembled in `GET /api/metrics`:
`{ cpu, ram: ram?.percent, disk: disk?.percent, services, docker, bots }`.
`cpu`, `ram`, `disk` may be `null` when the underlying probe failed. -/
structure MetricSnapshot where
  cpu : Option Int
  ram : Option Int
  disk : Option Int
  services : List ServiceState
  docker : List ContainerState
  bots : List BotState
  deriving DecidableEq, Repr

/-- The `metric` discriminator of a configured alert rule. -/
inductive RuleMetric where
  | cpu | ram | disk | service_down | container_down | bot_offline
  deriving DecidableEq, Repr

/-- A configured alert rule.  Numeric rules use `threshold` (and the
optional `duration`, where `0` models a missing/falsy `rule.duration`);
binary rules use `name`. -/
structure Rule where
  metric : RuleMetric
  threshold : Int := 0
  name : String := ""
  duration : Nat := 0
  deriving DecidableEq, Repr

/-- `evaluateRule(rule, snapshot)` from the source: numeric rules compare
`snapshot.<field> ?? 0` to the threshold with `>=`; binary rules use
`.some` over the relevant state list. -/
def evaluateRule (rule : Rule) (snapshot : Option MetricSnapshot) : Bool :=
  match snapshot with
  | none => false
  | some s =>
    match rule.metric with
    | .cpu => s.cpu.getD 0 ≥ rule.threshold
    | .ram => s.ram.getD 0 ≥ rule.threshold
    | .disk => s.disk.getD 0 ≥ rule.threshold
    | .service_down => s.services.any fun x => x.name = rule.name && !x.active
    | .container_down => s.docker.any fun c => c.name = rule.name && !c.running
    | .bot_offline => s.bots.any fun b => b.name = rule.name && !b.online

/-- `alertState` values: `{ status, firedAt, resolvedAt, accumulator }`. -/
inductive AlertStatus where
  | idle | firing | resolved
  deriving DecidableEq, Repr

/-- Per-rule runtime state, as initialised by
`alertState.set(i, { status: 'idle', firedAt: null, resolvedAt: null, accumulator: 0 })`. -/
structure RuleState where
  status : AlertStatus
  firedAt : Option Int
  resolvedAt : Option Int
  accumulator : Nat
  deriving DecidableEq, Repr

/-- The state a rule starts in on first evaluation. -/
def initRuleState : RuleState :=
  { status := .idle, firedAt := none, resolvedAt := none, accumulator := 0 }

/-- An `alertHistory` entry as pushed by the worker:
`{ ruleIndex, metric, message, firedAt, active, resolvedAt }`
(we keep `message` as an opaque string). -/
structure HistoryEntry where
  ruleIndex : Nat
  message : String
  firedAt : Int
  active : Bool
  resolvedAt : Option Int
  deriving DecidableEq, Repr

/-- `pushHistory(entry)`: unshift, then `slice(0, 20)` when the buffer
exceeds 20 entries. -/
def pushHistory (h : List HistoryEntry) (e : HistoryEntry) : List HistoryEntry :=
  let h2 := e :: h
  if h2.length > 20 then h2.take 20 else h2

/-- `alertHistory.find(e => e.ruleIndex === i && e.active)` followed by
`entry.active = false; entry.resolvedAt = now`: close the first (newest)
active entry for rule `i`, leaving everything else untouched. -/
def closeEntry (h : List HistoryEntry) (i : Nat) (now : Int) : List HistoryEntry :=
  match h with
  | [] => []
  | e :: rest =>
    if e.ruleIndex = i ∧ e.active then
      { e with active := false, resolvedAt := some now } :: rest
    else
      e :: closeEntry rest i now

/-- Notifications emitted during a tick (a `sendTelegramMessage` dispatch). -/
inductive AlertEvent where
  | fired (ruleIndex : Nat)
  | recovered (ruleIndex : Nat)
  deriving DecidableEq, Repr

/-- `['cpu', 'ram', 'disk'].includes(rule.metric)`. -/
def isNumericMetric (m : RuleMetric) : Bool :=
  match m with
  | .cpu | .ram | .disk => true
  | _ => false

/-- The tick interval constant `STEP_SECONDS = 30` of `startAlertWorker`. -/
def STEP_SECONDS : Nat := 30

/-- The cooldown gate `state.firedAt && now - state.firedAt < cooldownMs`
(a `null` `firedAt` is falsy and never suppresses). -/
def inCooldown (firedAt : Option Int) (now cooldownMs : Int) : Bool :=
  match firedAt with
  | some t => now - t < cooldownMs
  | none => false

/-- One iteration of the `for` loop body of `startAlertWorker` for rule `i`:
given the rule, its state, the shared history buffer, the evaluated
predicate and the clock, produce the updated state, updated history and
the notifications dispatched.  Follows the source branch for branch.  -/
def stepRule (rule : Rule) (i : Nat) (st : RuleState) (hist : List HistoryEntry)
    (triggered : Bool) (now cooldownMs : Int) :
    RuleState × List HistoryEntry × List AlertEvent :=
  if isNumericMetric rule.metric ∧ rule.duration ≠ 0 then
    -- duration-gated numeric branch
    let st := { st with accumulator := if triggered then st.accumulator + STEP_SECONDS else 0 }
    let shouldFire := st.accumulator ≥ rule.duration
    if ¬shouldFire ∧ st.status = .idle then
      (st, hist, [])
    else if ¬shouldFire ∧ st.status = .firing then
      ({ st with status := .resolved, resolvedAt := some now },
       closeEntry hist i now, [.recovered i])
    else if shouldFire ∧ st.status ≠ .firing then
      if inCooldown st.firedAt now cooldownMs then
        (st, hist, [])
      else
        ({ st with status := .firing, firedAt := some now },
         pushHistory hist { ruleIndex := i, message := "", firedAt := now,
                            active := true, resolvedAt := none },
         [.fired i])
    else
      (st, hist, [])
  else
    -- binary branch (service_down, container_down, bot_offline,
    -- and numeric rules without a duration)
    if triggered ∧ st.status ≠ .firing then
      if inCooldown st.firedAt now cooldownMs then
        (st, hist, [])
      else
        ({ st with status := .firing, firedAt := some now },
         pushHistory hist { ruleIndex := i, message := "", firedAt := now,
                            active := true, resolvedAt := none },
         [.fired i])
    else if ¬triggered ∧ st.status = .firing then
      ({ st with status := .resolved, resolvedAt := some now },
       closeEntry hist i now, [.recovered i])
    else
      (st, hist, [])

/-- Run one rule over a sequence of `(snapshot, now)` ticks, starting from a
given state and history, collecting all notifications in order. -/
def runRule (rule : Rule) (i : Nat) (cooldownMs : Int) :
    RuleState → List HistoryEntry → List (Option MetricSnapshot × Int) →
    RuleState × List HistoryEntry × List AlertEvent
  | st, hist, [] => (st, hist, [])
  | st, hist, (snap, now) :: ticks =>
    let (st', hist', evs) := stepRule rule i st hist (evaluateRule rule snap) now cooldownMs
    let (st'', hist'', evs') := runRule rule i cooldownMs st' hist' ticks
    (st'', hist'', evs ++ evs')

/-- The rule index an event is tagged with. -/
def eventIndex : AlertEvent → Nat
  | .fired i => i
  | .recovered i => i

/-- The events of a tick that belong to rule `i`. -/
def eventsAt (i : Nat) (evs : List AlertEvent) : List AlertEvent :=
  evs.filter fun e => eventIndex e == i

/-- The `for (let i = 0; ...)` loop of one alert tick, starting at index
`start`: each rule reads its own state from the shared map and the shared
history buffer is threaded through. -/
def tickFrom (snap : Option MetricSnapshot) (now cd : Int) :
    List Rule → Nat → (Nat → RuleState) → List HistoryEntry →
    (Nat → RuleState) × List HistoryEntry × List AlertEvent
  | [], _, states, hist => (states, hist, [])
  | rule :: rest, i, states, hist =>
    let (st', hist', evs) := stepRule rule i (states i) hist (evaluateRule rule snap) now cd
    let states' := fun j => if j = i then st' else states j
    let (states'', hist'', evs') := tickFrom snap now cd rest (i + 1) states' hist'
    (states'', hist'', evs ++ evs')

/-- The worker's whole mutable state: the `alertState` map (modelled as a
total map defaulting to `initRuleState`, matching the lazy
`alertState.set(i, ...)` initialisation) and the `alertHistory` buffer. -/
structure WorkerState where
  states : Nat → RuleState
  history : List HistoryEntry

/-- The state at process start: no history, every rule idle. -/
def initWorker : WorkerState :=
  { states := fun _ => initRuleState, history := [] }

/-- One full alert tick over the configured rule list. -/
def tick (rules : List Rule) (snap : Option MetricSnapshot) (now cd : Int)
    (ws : WorkerState) : WorkerState × List AlertEvent :=
  let (s, h, e) := tickFrom snap now cd rules 0 ws.states ws.history
  ({ states := s, history := h }, e)

/-- Worker states reachable from process start by any sequence of ticks. -/
inductive ReachableWorker : WorkerState → Prop where
  | init : ReachableWorker initWorker
  | step (rules : List Rule) (snap : Option MetricSnapshot) (now cd : Int)
      (ws : WorkerState) (h : ReachableWorker ws) :
      ReachableWorker (tick rules snap now cd ws).1

/-- `GET /api/alerts/status`: `active` is the filter of the ring buffer on
the `active` flag. -/
def activeAlerts (ws : WorkerState) : List HistoryEntry :=
  ws.history.filter fun e => e.active

/-- `GET /api/alerts/status`: `history` is `alertHistory.slice(0, 20)`. -/
def alertsStatusHistory (ws : WorkerState) : List HistoryEntry :=
  ws.history.take 20

/-! ### The bot-status revalidating cache (`botCache`) -/

/-- A `botCache` entry `{ time, data, refreshing }`; the probed record is
abstracted to a value of type `α`. -/
structure CacheEntry (α : Type) where
  time : Int
  data : α
  refreshing : Bool
  deriving DecidableEq, Repr

/-- The synchronous body of `getBotStatus`: if the entry is fresh
(`now - cached.time < ttl`) return it; otherwise, when no refresh is in
flight (`!cached || !cached.refreshing`), mark the key refreshing
(creating a placeholder entry with `time: 0` when absent) and launch the
probe.  Returns the updated entry, the value handed to the caller, and
whether a probe was launched. -/
def cacheGet {α : Type} (placeholder : α) (ttl now : Int) :
    Option (CacheEntry α) → Option (CacheEntry α) × α × Bool
  | some c =>
    if now - c.time < ttl then (some c, c.data, false)
    else if ¬c.refreshing then (some { c with refreshing := true }, c.data, true)
    else (some c, c.data, false)
  | none => (some { time := 0, data := placeholder, refreshing := true }, placeholder, true)

/-- Successful completion of `fetchBotStatus`:
`botCache[key] = { time: Date.now(), data: result, refreshing: false }`. -/
def fetchComplete {α : Type} (now : Int) (result : α)
    (_cache : Option (CacheEntry α)) : Option (CacheEntry α) :=
  some { time := now, data := result, refreshing := false }

/-- The `catch` branch of `fetchBotStatus`:
`if (botCache[key]) botCache[key].refreshing = false` — the stored value
and its timestamp are untouched and no error reaches any caller. -/
def fetchFail {α : Type} : Option (CacheEntry α) → Option (CacheEntry α)
  | some c => some { c with refreshing := false }
  | none => none

/-- The observable operations on one cache key. -/
inductive CacheOp (α : Type) where
  | get (now : Int)
  | fail
  | complete (now : Int) (value : α)
  deriving DecidableEq, Repr

/-- Whether an operation is a successful probe completion. -/
def isCompleteOp {α : Type} : CacheOp α → Bool
  | .complete _ _ => true
  | _ => false

/-- Run a sequence of operations on one key, collecting the value each
`get` hands to its caller and counting probe launches. -/
def runCache {α : Type} (placeholder : α) (ttl : Int) :
    Option (CacheEntry α) → List (CacheOp α) →
    Option (CacheEntry α) × List α × Nat
  | st, [] => (st, [], 0)
  | st, .get now :: ops =>
    let (st', v, launched) := cacheGet placeholder ttl now st
    let (st'', vs, n) := runCache placeholder ttl st' ops
    (st'', v :: vs, (if launched then 1 else 0) + n)
  | st, .fail :: ops => runCache placeholder ttl (fetchFail st) ops
  | st, .complete now v :: ops => runCache placeholder ttl (fetchComplete now v st) ops

/-- The value a `get` would serve from a cache state: the stored data, or
the placeholder when no entry exists. -/
def cacheDataOr {α : Type} (placeholder : α) : Option (CacheEntry α) → α
  | some c => c.data
  | none => placeholder

/-! ### The history store (`history.jsonl`) -/

/-- `HISTORY_MAX_AGE = 30 * 24 * 60 * 60 * 1000` (30 days in ms). -/
def HISTORY_MAX_AGE : Int := 30 * 24 * 60 * 60 * 1000

/-- A record of `history.jsonl` (the T50 schema):
`{ ts, cpu, ram, disk, netUp, netDown }`.  Values are rationals because
the range query averages them. -/
structure HistorySample where
  ts : Int
  cpu : ℚ
  ram : ℚ
  disk : ℚ
  netUp : ℚ
  netDown : ℚ
  deriving DecidableEq, Repr

/-- `readNetStats()`: the raw cumulative receive/transmit byte counters of
the configured interface, parsed from `/proc/net/dev`. -/
structure NetStats where
  rx : Int
  tx : Int
  deriving DecidableEq, Repr

/-- JS `Math.round`: round half towards `+∞`. -/
def jsRound (q : ℚ) : Int := ⌊q + 1 / 2⌋

/-- The rate computation of `getNetworkSpeed()` (the `/api/metrics` path):
`Math.round((current - last) / dt)` with `dt` in seconds, clamped at 0 —
`(up, down)` in bytes per second. -/
def netRate (prev cur : NetStats) (dtMs : Int) : Int × Int :=
  let dt : ℚ := (dtMs : ℚ) / 1000
  let down := jsRound (((cur.rx - prev.rx : Int) : ℚ) / dt)
  let up := jsRound (((cur.tx - prev.tx : Int) : ℚ) / dt)
  (max 0 up, max 0 down)

/-- The sample built by `collectHistorySample` from the probed values:
`{ ts: Date.now(), cpu: cpu ?? 0, ram: ram?.percent ?? 0,
   disk: disk?.percent ?? 0, netUp: netStats?.tx ?? 0,
   netDown: netStats?.rx ?? 0 }`. -/
def mkHistorySample (now : Int) (cpu ram disk : Option ℚ)
    (net : Option NetStats) : HistorySample :=
  { ts := now, cpu := cpu.getD 0, ram := ram.getD 0, disk := disk.getD 0,
    netUp := (net.map fun n => (n.tx : ℚ)).getD 0,
    netDown := (net.map fun n => (n.rx : ℚ)).getD 0 }

/-- `pruneHistory()`: keep exactly the records with
`ts >= Date.now() - HISTORY_MAX_AGE` and rewrite the store with them. -/
def pruneHistory (store : List HistorySample) (now : Int) : List HistorySample :=
  store.filter fun s => now - HISTORY_MAX_AGE ≤ s.ts

/-- One `appendSample` cycle of the collector: append the record, then
prune (both use the same clock reading in the model). -/
def appendSample (store : List HistorySample) (s : HistorySample)
    (now : Int) : List HistorySample :=
  pruneHistory (store ++ [s]) now

/-- `collectHistorySample()`: build the sample from the probes, append it
and prune. -/
def collectHistorySample (store : List HistorySample) (now : Int)
    (cpu ram disk : Option ℚ) (net : Option NetStats) : List HistorySample :=
  appendSample store (mkHistorySample now cpu ram disk net) now

/-- `validMetrics = ['cpu', 'ram', 'disk', 'netUp', 'netDown']`. -/
def validMetrics : List String := ["cpu", "ram", "disk", "netUp", "netDown"]

/-- `entry[metric] ?? 0` for a metric name. -/
def sampleValue (metric : String) (s : HistorySample) : ℚ :=
  if metric = "cpu" then s.cpu
  else if metric = "ram" then s.ram
  else if metric = "disk" then s.disk
  else if metric = "netUp" then s.netUp
  else if metric = "netDown" then s.netDown
  else 0

/-- Bucket width of `GET /api/history`: 5 minutes for `hours ≤ 24`, 1 hour
for `hours ≤ 168`, 4 hours otherwise. -/
def bucketMs (hours : Int) : Int :=
  if hours ≤ 24 then 5 * 60 * 1000
  else if hours ≤ 168 then 60 * 60 * 1000
  else 4 * 60 * 60 * 1000

/-- `Math.floor(entry.ts / bucketMs) * bucketMs`. -/
def bucketOf (ts bms : Int) : Int := Int.fdiv ts bms * bms

/-- The `entry.ts >= cutoff` filter of `GET /api/history`
(`cutoff = Date.now() - hours * 60 * 60 * 1000`). -/
def windowSamples (store : List HistorySample) (hours now : Int) :
    List HistorySample :=
  store.filter fun s => now - hours * 60 * 60 * 1000 ≤ s.ts

/-- The in-window samples aggregated under bucket key `b` (the JS `Map`
entry for `b`). -/
def bucketSamples (store : List HistorySample) (hours now b : Int) :
    List HistorySample :=
  (windowSamples store hours now).filter fun s => bucketOf s.ts (bucketMs hours) = b

/-- One reported value: `Math.round(b.sum / b.count * 10) / 10`. -/
def bucketValue (metric : String) (xs : List HistorySample) : ℚ :=
  (jsRound ((xs.map (sampleValue metric)).sum / xs.length * 10) : ℚ) / 10

/-- `GET /api/history`: reject unknown metrics before touching the store;
otherwise filter the samples in the window, group them by bucket
(the JS `Map` keyed by bucket start, rendered here as the bucket keys of
the in-window samples with duplicates removed), sort by bucket, and
report one averaged value per non-empty bucket at the bucket midpoint. -/
def queryHistory (store : List HistorySample) (metric : String)
    (hours now : Int) : Except String (List (Int × ℚ)) :=
  if metric ∉ validMetrics then
    .error ("Invalid metric. Use: " ++ String.intercalate ", " validMetrics)
  else
    let keys := (((windowSamples store hours now).map fun s =>
      bucketOf s.ts (bucketMs hours)).dedup).mergeSort
    .ok <| keys.map fun b =>
      (b + bucketMs hours / 2, bucketValue metric (bucketSamples store hours now b))

/-! ### Concrete scenario data (C1, C2) -/

/-- A snapshot whose CPU is above a 90% threshold. -/
def snapAbove : MetricSnapshot :=
  { cpu := some 95, ram := none, disk := none, services := [], docker := [], bots := [] }

/-- A snapshot whose CPU is below a 90% threshold. -/
def snapBelow : MetricSnapshot :=
  { cpu := some 50, ram := none, disk := none, services := [], docker := [], bots := [] }

/-- A CPU rule with `threshold 90` and `durationSeconds = 60`. -/
def cpuRule60 : Rule := { metric := .cpu, threshold := 90, duration := 60 }

/-- The six 30-second ticks `[above, above, below, above, above, above]`. -/
def c1Ticks : List (Option MetricSnapshot × Int) :=
  [(some snapAbove, 0), (some snapAbove, 30000), (some snapBelow, 60000),
   (some snapAbove, 90000), (some snapAbove, 120000), (some snapAbove, 150000)]

/-- A binary rule watching the service `db`. -/
def svcRule : Rule := { metric := .service_down, name := "db" }

/-- A snapshot in which service `db` is down. -/
def snapSvcDown : MetricSnapshot :=
  { cpu := none, ram := none, disk := none,
    services := [{ name := "db", active := false }], docker := [], bots := [] }

/-- A snapshot in which service `db` is up. -/
def snapSvcUp : MetricSnapshot :=
  { cpu := none, ram := none, disk := none,
    services := [{ name := "db", active := true }], docker := [], bots := [] }

/-- The C2 scenario ticks: down, up, down again — all within the 15-minute
cooldown window. -/
def c2Ticks : List (Option MetricSnapshot × Int) :=
  [(some snapSvcDown, 0), (some snapSvcUp, 30000), (some snapSvcDown, 60000)]

/-- C6 scenario: three samples, two in the first 5-minute bucket and one
in the second. -/
def c6Store : List HistorySample :=
  [{ ts := 0, cpu := 10, ram := 0, disk := 0, netUp := 0, netDown := 0 },
   { ts := 60000, cpu := 15, ram := 0, disk := 0, netUp := 0, netDown := 0 },
   { ts := 400000, cpu := 33, ram := 0, disk := 0, netUp := 0, netDown := 0 }]

/-- C5 scenario: a key whose probe fails on every attempt — stale gets
interleaved with probe failures, no successful completion. -/
def c5Ops : List (CacheOp Int) :=
  [.get 5000, .fail, .get 6000, .fail, .get 7000, .fail]

/-- Tick-by-tick evaluation of the C1 scenario (helper). -/
lemma c1_step1 (cd : Int) :
    stepRule cpuRule60 0 initRuleState [] true 0 cd =
      ({ status := .idle, firedAt := none, resolvedAt := none, accumulator := 30 }, [], []) := by
  simp +decide [stepRule, initRuleState, cpuRule60, STEP_SECONDS, isNumericMetric, inCooldown]

/-- Tick 2 of the C1 scenario: the accumulator reaches 60 and the rule fires. -/
lemma c1_step2 (cd : Int) :
    stepRule cpuRule60 0
      { status := .idle, firedAt := none, resolvedAt := none, accumulator := 30 } [] true 30000 cd =
      ({ status := .firing, firedAt := some 30000, resolvedAt := none, accumulator := 60 },
       [{ ruleIndex := 0, message := "", firedAt := 30000, active := true, resolvedAt := none }],
       [.fired 0]) := by
  simp +decide [stepRule, cpuRule60, STEP_SECONDS, isNumericMetric, inCooldown, pushHistory]

/-- Tick 3 of the C1 scenario: the below tick resets the accumulator and resolves. -/
lemma c1_step3 (cd : Int) :
    stepRule cpuRule60 0
      { status := .firing, firedAt := some 30000, resolvedAt := none, accumulator := 60 }
      [{ ruleIndex := 0, message := "", firedAt := 30000, active := true, resolvedAt := none }]
      false 60000 cd =
      ({ status := .resolved, firedAt := some 30000, resolvedAt := some 60000, accumulator := 0 },
       [{ ruleIndex := 0, message := "", firedAt := 30000, active := false, resolvedAt := some 60000 }],
       [.recovered 0]) := by
  simp +decide [stepRule, cpuRule60, STEP_SECONDS, isNumericMetric, inCooldown, closeEntry]

/-- Tick 4 of the C1 scenario: 30 seconds accumulated, nothing happens. -/
lemma c1_step4 (cd : Int) :
    stepRule cpuRule60 0
      { status := .resolved, firedAt := some 30000, resolvedAt := some 60000, accumulator := 0 }
      [{ ruleIndex := 0, message := "", firedAt := 30000, active := false, resolvedAt := some 60000 }]
      true 90000 cd =
      ({ status := .resolved, firedAt := some 30000, resolvedAt := some 60000, accumulator := 30 },
       [{ ruleIndex := 0, message := "", firedAt := 30000, active := false, resolvedAt := some 60000 }],
       []) := by
  simp +decide [stepRule, cpuRule60, STEP_SECONDS, isNumericMetric, inCooldown]

/-- Tick 5 of the C1 scenario: 60 seconds accumulated again; with the
cooldown elapsed (`cd ≤ 90000`) the rule fires a second time. -/
lemma c1_step5 (cd : Int) (hcd : cd ≤ 90000) :
    stepRule cpuRule60 0
      { status := .resolved, firedAt := some 30000, resolvedAt := some 60000, accumulator := 30 }
      [{ ruleIndex := 0, message := "", firedAt := 30000, active := false, resolvedAt := some 60000 }]
      true 120000 cd =
      ({ status := .firing, firedAt := some 120000, resolvedAt := some 60000, accumulator := 60 },
       [{ ruleIndex := 0, message := "", firedAt := 120000, active := true, resolvedAt := none },
        { ruleIndex := 0, message := "", firedAt := 30000, active := false, resolvedAt := some 60000 }],
       [.fired 0]) := by
  have h90 : ¬((120000 : Int) - 30000 < cd) := by omega
  simp +decide [stepRule, cpuRule60, STEP_SECONDS, isNumericMetric, inCooldown, pushHistory, h90]
  omega

/-- Tick 6 of the C1 scenario: already firing, no further notification. -/
lemma c1_step6 (cd : Int) :
    stepRule cpuRule60 0
      { status := .firing, firedAt := some 120000, resolvedAt := some 60000, accumulator := 60 }
      [{ ruleIndex := 0, message := "", firedAt := 120000, active := true, resolvedAt := none },
       { ruleIndex := 0, message := "", firedAt := 30000, active := false, resolvedAt := some 60000 }]
      true 150000 cd =
      ({ status := .firing, firedAt := some 120000, resolvedAt := some 60000, accumulator := 90 },
       [{ ruleIndex := 0, message := "", firedAt := 120000, active := true, resolvedAt := none },
        { ruleIndex := 0, message := "", firedAt := 30000, active := false, resolvedAt := some 60000 }],
       []) := by
  simp +decide [stepRule, cpuRule60, STEP_SECONDS, isNumericMetric, inCooldown]

/-- The rule predicate on the two scenario snapshots (helper). -/
lemma c1_evalAbove : evaluateRule cpuRule60 (some snapAbove) = true := by decide

/-- The rule predicate is false on the below snapshot (helper). -/
lemma c1_evalBelow : evaluateRule cpuRule60 (some snapBelow) = false := by decide

/-- **C1.** For every numeric rule with a configured duration the worker's
accumulator is incremented by the 30-second tick interval while the
predicate holds and reset to zero otherwise, and a fire notification is
dispatched only when the accumulator has reached `duration`.  On the
concrete sequence `[above, above, below, above, above, above]` with
`durationSeconds = 60`, exactly one fire occurs after the first two
above ticks, the below tick resets the accumulator to zero and resolves,
and the remaining three above ticks produce exactly one more fire
provided the cooldown has elapsed (here: `cooldownMs ≤ 90000`, the time
between the two fires). -/
theorem C1_duration_gating (cd : Int) (hcd : cd ≤ 90000) :
    (∀ (rule : Rule) (i : Nat) (st : RuleState) (hist : List HistoryEntry)
        (triggered : Bool) (now : Int),
        isNumericMetric rule.metric = true → rule.duration ≠ 0 →
        (stepRule rule i st hist triggered now cd).1.accumulator =
          (if triggered then st.accumulator + STEP_SECONDS else 0)) ∧
    (∀ (rule : Rule) (i : Nat) (st : RuleState) (hist : List HistoryEntry)
        (triggered : Bool) (now : Int),
        isNumericMetric rule.metric = true → rule.duration ≠ 0 →
        AlertEvent.fired i ∈ (stepRule rule i st hist triggered now cd).2.2 →
        (if triggered then st.accumulator + STEP_SECONDS else 0) ≥ rule.duration) ∧
    ((runRule cpuRule60 0 cd initRuleState [] (c1Ticks.take 2)).2.2 = [.fired 0]) ∧
    ((runRule cpuRule60 0 cd initRuleState [] (c1Ticks.take 3)).2.2 =
      [.fired 0, .recovered 0]) ∧
    ((runRule cpuRule60 0 cd initRuleState [] (c1Ticks.take 3)).1.accumulator = 0) ∧
    ((runRule cpuRule60 0 cd initRuleState [] c1Ticks).2.2 =
      [.fired 0, .recovered 0, .fired 0]) := by
  have h90 : ¬((120000 : Int) - 30000 < cd) := by omega
  refine ⟨?_, ?_, ?_, ?_, ?_, ?_⟩
  · intro rule i st hist trig now h1 h2
    simp only [stepRule, h1, h2, ne_eq, not_false_iff, and_true, if_true]
    repeat' split
    all_goals rfl
  · intro rule i st hist trig now h1 h2 hmem
    simp only [stepRule, h1, h2, ne_eq, not_false_iff, and_true, if_true] at hmem
    repeat' split at hmem
    all_goals simp_all
  · simp [runRule, c1Ticks, c1_evalAbove, c1_evalBelow,
      c1_step1 cd, c1_step2 cd]
  · simp [runRule, c1Ticks, c1_evalAbove, c1_evalBelow,
      c1_step1 cd, c1_step2 cd, c1_step3 cd]
  · simp [runRule, c1Ticks, c1_evalAbove, c1_evalBelow,
      c1_step1 cd, c1_step2 cd, c1_step3 cd]
  · simp [runRule, c1Ticks, c1_evalAbove, c1_evalBelow,
      c1_step1 cd, c1_step2 cd, c1_step3 cd, c1_step4 cd, c1_step5 cd hcd, c1_step6 cd]

/-- Witness for C1 at the concrete cooldown `cd = 60000` (one minute,
elapsed by the time of the second fire). -/
theorem C1_duration_gating_witness :
    (runRule cpuRule60 0 60000 initRuleState [] c1Ticks).2.2 =
      [.fired 0, .recovered 0, .fired 0] :=
  (C1_duration_gating 60000 (by norm_num)).2.2.2.2.2

/-- Helper: a step's resulting rule state and its notifications do not
depend on the history buffer passed in. -/
lemma stepRule_hist_irrel (rule : Rule) (i : Nat) (st : RuleState)
    (h1 h2 : List HistoryEntry) (trig : Bool) (now cd : Int) :
    (stepRule rule i st h1 trig now cd).1 = (stepRule rule i st h2 trig now cd).1 ∧
    (stepRule rule i st h1 trig now cd).2.2 = (stepRule rule i st h2 trig now cd).2.2 := by
  simp only [stepRule]
  split_ifs <;> simp_all

/-- Helper: every notification a step emits is tagged with the step's own
rule index. -/
lemma stepRule_event_tag (rule : Rule) (i : Nat) (st : RuleState)
    (h : List HistoryEntry) (trig : Bool) (now cd : Int) :
    ∀ e ∈ (stepRule rule i st h trig now cd).2.2, eventIndex e = i := by
  simp only [stepRule]
  split_ifs <;> simp_all [eventIndex]

/-- Helper: within one tick, the notifications for rule `i` and the
resulting state of rule `i` depend only on rule `i`'s own entry of the
state map (and not on the history buffer nor on any other rule's state). -/
lemma tickFrom_at (snap : Option MetricSnapshot) (now cd : Int) :
    ∀ (rules : List Rule) (start : Nat) (σ σ' : Nat → RuleState)
      (h h' : List HistoryEntry) (i : Nat), σ i = σ' i →
      eventsAt i (tickFrom snap now cd rules start σ h).2.2 =
        eventsAt i (tickFrom snap now cd rules start σ' h').2.2 ∧
      (tickFrom snap now cd rules start σ h).1 i =
        (tickFrom snap now cd rules start σ' h').1 i := by
  intro rules
  induction rules with
  | nil =>
    intro start σ σ' h h' i hag
    simpa [tickFrom, eventsAt] using hag
  | cons rule rest ih =>
    intro start σ σ' h h' i hag
    simp only [tickFrom]
    by_cases hstart : start = i
    · subst hstart
      obtain ⟨hs, he⟩ := stepRule_hist_irrel rule start (σ start) h h'
        (evaluateRule rule snap) now cd
    -- the two steps agree because the input states agree
      rw [hag] at hs he
      have hagnext :
          (fun j => if j = start
              then (stepRule rule start (σ' start) h (evaluateRule rule snap) now cd).1
              else σ j) start =
          (fun j => if j = start
              then (stepRule rule start (σ' start) h' (evaluateRule rule snap) now cd).1
              else σ' j) start := by
        simp [hs]
      obtain ⟨ihe, ihs⟩ := ih (start + 1)
        (fun j => if j = start
            then (stepRule rule start (σ' start) h (evaluateRule rule snap) now cd).1
            else σ j)
        (fun j => if j = start
            then (stepRule rule start (σ' start) h' (evaluateRule rule snap) now cd).1
            else σ' j)
        (stepRule rule start (σ' start) h (evaluateRule rule snap) now cd).2.1
        (stepRule rule start (σ' start) h' (evaluateRule rule snap) now cd).2.1
        start hagnext
      refine ⟨?_, ?_⟩
      · simp only [eventsAt, List.filter_append] at *
        rw [hag, he, ihe]
      · simpa [hag] using ihs
    · have h1 : eventsAt i (stepRule rule start (σ start) h (evaluateRule rule snap) now cd).2.2 = [] := by
        rw [eventsAt, List.filter_eq_nil_iff]
        intro e hmem
        have := stepRule_event_tag rule start (σ start) h (evaluateRule rule snap) now cd e hmem
        simpa [this] using hstart
      have h2 : eventsAt i (stepRule rule start (σ' start) h' (evaluateRule rule snap) now cd).2.2 = [] := by
        rw [eventsAt, List.filter_eq_nil_iff]
        intro e hmem
        have := stepRule_event_tag rule start (σ' start) h' (evaluateRule rule snap) now cd e hmem
        simpa [this] using hstart
      have hagnext :
          (fun j => if j = start
              then (stepRule rule start (σ start) h (evaluateRule rule snap) now cd).1
              else σ j) i =
          (fun j => if j = start
              then (stepRule rule start (σ' start) h' (evaluateRule rule snap) now cd).1
              else σ' j) i := by
        have : ¬(i = start) := fun hc => hstart hc.symm
        simp [this, hag]
      obtain ⟨ihe, ihs⟩ := ih (start + 1)
        (fun j => if j = start
            then (stepRule rule start (σ start) h (evaluateRule rule snap) now cd).1
            else σ j)
        (fun j => if j = start
            then (stepRule rule start (σ' start) h' (evaluateRule rule snap) now cd).1
            else σ' j)
        (stepRule rule start (σ start) h (evaluateRule rule snap) now cd).2.1
        (stepRule rule start (σ' start) h' (evaluateRule rule snap) now cd).2.1
        i hagnext
      refine ⟨?_, ?_⟩
      · simp only [eventsAt, List.filter_append] at *
        rw [h1, h2, ihe]
      · simpa using ihs

/-- **C2.** A fire transition is suppressed whenever the rule's own
`firedAt` is within the last `cooldownMs` (no fire notification is
emitted and `firedAt` is not rewritten); a resolve transition (predicate
false while the rule is `firing`) always moves the rule to `resolved` and
always emits exactly one recovery notification, with no cooldown check;
the notifications and resulting state of one rule in a tick depend only
on that rule's own state, so one rule's cooldown never affects another;
and concretely, a service-down rule evaluated on `[down, up, down]` ticks
inside a 15-minute cooldown fires once, recovers once (unsuppressed), and
is suppressed on the second down tick. -/
theorem C2_cooldown_semantics :
    (∀ (rule : Rule) (i : Nat) (st : RuleState) (hist : List HistoryEntry)
        (trig : Bool) (now cd t : Int),
        st.firedAt = some t → now - t < cd →
        AlertEvent.fired i ∉ (stepRule rule i st hist trig now cd).2.2 ∧
        (stepRule rule i st hist trig now cd).1.firedAt = st.firedAt) ∧
    (∀ (rule : Rule) (i : Nat) (st : RuleState) (hist : List HistoryEntry)
        (now cd : Int),
        st.status = .firing →
        (stepRule rule i st hist false now cd).1.status = .resolved ∧
        (stepRule rule i st hist false now cd).2.2 = [.recovered i]) ∧
    (∀ (snap : Option MetricSnapshot) (now cd : Int) (rules : List Rule)
        (σ σ' : Nat → RuleState) (h h' : List HistoryEntry) (i : Nat),
        σ i = σ' i →
        eventsAt i (tickFrom snap now cd rules 0 σ h).2.2 =
          eventsAt i (tickFrom snap now cd rules 0 σ' h').2.2) ∧
    ((runRule svcRule 0 900000 initRuleState [] c2Ticks).2.2 =
      [.fired 0, .recovered 0]) := by
  refine ⟨?_, ?_, ?_, ?_⟩
  · intro rule i st hist trig now cd t hfa hlt
    have hcool : inCooldown st.firedAt now cd = true := by
      simp [inCooldown, hfa, hlt]
    simp only [stepRule]
    split_ifs <;> simp_all
  · intro rule i st hist now cd hfiring
    simp only [stepRule]
    split_ifs <;> simp_all
  · intro snap now cd rules σ σ' h h' i hag
    exact (tickFrom_at snap now cd rules 0 σ σ' h h' i hag).1
  · decide

/-- Witness for C2: a concrete suppressed re-fire (rule fired at time 0,
re-eligible at time 60000, cooldown 900000) and a concrete cooldown-free
resolve. -/
theorem C2_cooldown_semantics_witness :
    ((0 : Int) ≤ 60000 - 0 ∧ (60000 : Int) - 0 < 900000) ∧
    AlertEvent.fired 0 ∉
      (stepRule svcRule 0
        { status := .resolved, firedAt := some 0, resolvedAt := some 30000, accumulator := 0 }
        [] true 60000 900000).2.2 ∧
    (stepRule svcRule 0
      { status := .firing, firedAt := some 0, resolvedAt := none, accumulator := 0 }
      [] false 30000 900000).2.2 = [.recovered 0] :=
  ⟨⟨by norm_num, by norm_num⟩,
   (C2_cooldown_semantics.1 svcRule 0 _ [] true 60000 900000 0 rfl (by norm_num)).1,
   (C2_cooldown_semantics.2.1 svcRule 0 _ [] 30000 900000 rfl).2⟩

/-- **C3.** For every rule and snapshot: a numeric rule (`cpu`, `ram`,
`disk`) is triggered exactly when the corresponding percentage (with a
missing value read as 0) is `≥ threshold` — equality triggers; a binary
rule (`service_down`, `container_down`, `bot_offline`) is triggered
exactly when the corresponding state list contains an entry with the
rule's target name whose liveness flag is false; and a target name absent
from the list evaluates to not-triggered. -/
theorem C3_predicate_characterisation (rule : Rule) (s : MetricSnapshot) :
    (rule.metric = .cpu →
      (evaluateRule rule (some s) = true ↔ s.cpu.getD 0 ≥ rule.threshold)) ∧
    (rule.metric = .ram →
      (evaluateRule rule (some s) = true ↔ s.ram.getD 0 ≥ rule.threshold)) ∧
    (rule.metric = .disk →
      (evaluateRule rule (some s) = true ↔ s.disk.getD 0 ≥ rule.threshold)) ∧
    (rule.metric = .service_down →
      (evaluateRule rule (some s) = true ↔
        ∃ x ∈ s.services, x.name = rule.name ∧ x.active = false)) ∧
    (rule.metric = .container_down →
      (evaluateRule rule (some s) = true ↔
        ∃ c ∈ s.docker, c.name = rule.name ∧ c.running = false)) ∧
    (rule.metric = .bot_offline →
      (evaluateRule rule (some s) = true ↔
        ∃ b ∈ s.bots, b.name = rule.name ∧ b.online = false)) ∧
    (rule.metric = .service_down → (∀ x ∈ s.services, x.name ≠ rule.name) →
      evaluateRule rule (some s) = false) ∧
    (rule.metric = .container_down → (∀ c ∈ s.docker, c.name ≠ rule.name) →
      evaluateRule rule (some s) = false) ∧
    (rule.metric = .bot_offline → (∀ b ∈ s.bots, b.name ≠ rule.name) →
      evaluateRule rule (some s) = false) := by
  obtain ⟨m, th, nm, d⟩ := rule
  refine ⟨?_, ?_, ?_, ?_, ?_, ?_, ?_, ?_, ?_⟩ <;> intro h <;> subst h
  · simp [evaluateRule]
  · simp [evaluateRule]
  · simp [evaluateRule]
  · simp [evaluateRule]
  · simp [evaluateRule]
  · simp [evaluateRule]
  · intro habs
    simp only [evaluateRule, List.any_eq_false]
    intro x hx
    simp [habs x hx]
  · intro habs
    simp only [evaluateRule, List.any_eq_false]
    intro c hc
    simp [habs c hc]
  · intro habs
    simp only [evaluateRule, List.any_eq_false]
    intro b hb
    simp [habs b hb]

/-- Witness for C3: a CPU value exactly at the threshold triggers, and a
service name absent from the snapshot's list is not-triggered. -/
theorem C3_predicate_characterisation_witness :
    evaluateRule { metric := .cpu, threshold := 95 } (some snapAbove) = true ∧
    evaluateRule svcRule (some snapAbove) = false :=
  ⟨((C3_predicate_characterisation { metric := .cpu, threshold := 95 } snapAbove).1
      rfl).mpr (by decide),
   (C3_predicate_characterisation svcRule snapAbove).2.2.2.2.2.2.1 rfl (by decide)⟩

/-- Helper: a sequence of `get`s against an entry whose refresh is already
in flight launches no probe and leaves the entry untouched. -/
lemma runCache_gets_refreshing {α : Type} (pl : α) (ttl : Int) :
    ∀ (times : List Int) (c : CacheEntry α), c.refreshing = true →
      (runCache pl ttl (some c) (times.map .get)).2.2 = 0 ∧
      (runCache pl ttl (some c) (times.map .get)).1 = some c := by
  intro times
  induction times with
  | nil => intro c h; simp [runCache]
  | cons now rest ih =>
    intro c h
    have hg : cacheGet pl ttl now (some c) = (some c, c.data, false) := by
      simp [cacheGet, h]
    simp [runCache, hg, (ih c h).1, (ih c h).2]

/-- Helper: any sequence of `get`s launches at most one probe. -/
lemma runCache_gets_le_one {α : Type} (pl : α) (ttl : Int) :
    ∀ (times : List Int) (st : Option (CacheEntry α)),
      (runCache pl ttl st (times.map .get)).2.2 ≤ 1 := by
  intro times
  induction times with
  | nil => intro st; simp [runCache]
  | cons now rest ih =>
    intro st
    match st with
    | none =>
      have hg : cacheGet pl ttl now none =
          (some { time := 0, data := pl, refreshing := true }, pl, true) := rfl
      simp [runCache, hg,
        (runCache_gets_refreshing pl ttl rest { time := 0, data := pl, refreshing := true } rfl).1]
    | some c =>
      by_cases hr : c.refreshing = true
      · have := (runCache_gets_refreshing pl ttl (now :: rest) c hr).1
        omega
      · by_cases hf : now - c.time < ttl
        · have hg : cacheGet pl ttl now (some c) = (some c, c.data, false) := by
            simp [cacheGet, hf]
          simpa [runCache, hg] using ih (some c)
        · have hg : cacheGet pl ttl now (some c) =
              (some { c with refreshing := true }, c.data, true) := by
            simp [cacheGet, hf, hr]
          simp [runCache, hg,
            (runCache_gets_refreshing pl ttl rest { c with refreshing := true } rfl).1]

/-- **C4.** The `refreshing` flag is the sole guard on probe launches: a
`get` against an in-flight entry launches nothing and changes nothing; a
sequence of `get`s of any length launches at most one probe, and exactly
one when it starts against a stale non-refreshing entry (or a missing
one); only a probe completion or failure clears the flag again. -/
theorem C4_single_inflight_refresh {α : Type} (pl : α) (ttl : Int) :
    (∀ (now : Int) (c : CacheEntry α), c.refreshing = true →
        cacheGet pl ttl now (some c) = (some c, c.data, false)) ∧
    (∀ (times : List Int) (c : CacheEntry α), c.refreshing = true →
        (runCache pl ttl (some c) (times.map .get)).2.2 = 0) ∧
    (∀ (times : List Int) (st : Option (CacheEntry α)),
        (runCache pl ttl st (times.map .get)).2.2 ≤ 1) ∧
    (∀ (now : Int) (times : List Int) (c : CacheEntry α),
        c.refreshing = false → ttl ≤ now - c.time →
        (runCache pl ttl (some c) ((now :: times).map .get)).2.2 = 1) ∧
    (∀ (now : Int) (times : List Int),
        (runCache pl ttl none ((now :: times).map .get)).2.2 = 1) ∧
    (∀ c : CacheEntry α, fetchFail (some c) = some { c with refreshing := false }) ∧
    (∀ (now : Int) (v : α) (st : Option (CacheEntry α)),
        (fetchComplete now v st).map (·.refreshing) = some false) := by
  refine ⟨?_, ?_, ?_, ?_, ?_, ?_, ?_⟩
  · intro now c h
    simp [cacheGet, h]
  · intro times c h
    exact (runCache_gets_refreshing pl ttl times c h).1
  · exact runCache_gets_le_one pl ttl
  · intro now times c hr hstale
    have hf : ¬(now - c.time < ttl) := by omega
    have hg : cacheGet pl ttl now (some c) =
        (some { c with refreshing := true }, c.data, true) := by
      simp [cacheGet, hf, hr]
    simp [runCache, hg,
      (runCache_gets_refreshing pl ttl times { c with refreshing := true } rfl).1]
  · intro now times
    have hg : cacheGet pl ttl now none =
        (some { time := 0, data := pl, refreshing := true }, pl, true) := rfl
    simp [runCache, hg,
      (runCache_gets_refreshing pl ttl times { time := 0, data := pl, refreshing := true } rfl).1]
  · intro c; rfl
  · intro now v st; rfl

/-- Witness for C4: a stale non-refreshing entry (captured at time 0, got
at times 5000/5001/5002 with a 1000ms TTL) launches exactly one probe over
three gets. -/
theorem C4_single_inflight_refresh_witness :
    ((1000 : Int) ≤ 5000 - 0) ∧
    (runCache (0 : Int) 1000 (some { time := 0, data := 7, refreshing := false })
      ([5000, 5001, 5002].map .get)).2.2 = 1 :=
  ⟨by norm_num,
   (C4_single_inflight_refresh (0 : Int) 1000).2.2.2.1 5000 [5001, 5002]
     { time := 0, data := 7, refreshing := false } rfl (by norm_num)⟩

/-- Helper: a `get` hands its caller exactly the stored value (or the
placeholder) and never changes which value is stored. -/
lemma cacheGet_dataOr {α : Type} (pl : α) (ttl now : Int)
    (st : Option (CacheEntry α)) :
    (cacheGet pl ttl now st).2.1 = cacheDataOr pl st ∧
    cacheDataOr pl (cacheGet pl ttl now st).1 = cacheDataOr pl st := by
  match st with
  | none => exact ⟨rfl, rfl⟩
  | some c =>
    simp only [cacheGet, cacheDataOr]
    split_ifs <;> simp [cacheDataOr]

/-- Helper: a probe failure does not change which value is stored. -/
lemma fetchFail_dataOr {α : Type} (pl : α) (st : Option (CacheEntry α)) :
    cacheDataOr pl (fetchFail st) = cacheDataOr pl st := by
  match st with
  | none => rfl
  | some c => rfl

/-- **C5.** A probe failure clears the `refreshing` flag without touching
the stored value or its timestamp, and the failure is invisible to
callers: over any operation sequence containing no successful completion,
every `get` returns the value stored at the start (the last successfully
fetched value, or the placeholder if there never was one), and that value
is still the stored one afterwards. -/
theorem C5_failure_keeps_last_value {α : Type} (pl : α) (ttl : Int) :
    (∀ c : CacheEntry α, fetchFail (some c) =
        some { time := c.time, data := c.data, refreshing := false }) ∧
    (∀ (st : Option (CacheEntry α)) (ops : List (CacheOp α)),
        (∀ op ∈ ops, isCompleteOp op = false) →
        (∀ v ∈ (runCache pl ttl st ops).2.1, v = cacheDataOr pl st) ∧
        cacheDataOr pl (runCache pl ttl st ops).1 = cacheDataOr pl st) := by
  constructor
  · intro c; rfl
  · intro st ops
    induction ops generalizing st with
    | nil => intro _; simp [runCache]
    | cons op rest ih =>
      intro hnc
      have hrest : ∀ op ∈ rest, isCompleteOp op = false := fun o ho =>
        hnc o (List.mem_cons_of_mem _ ho)
      match op with
      | .get now =>
        obtain ⟨hv, hst⟩ := cacheGet_dataOr pl ttl now st
        obtain ⟨ih1, ih2⟩ := ih (cacheGet pl ttl now st).1 hrest
        constructor
        · intro v hmem
          simp only [runCache, List.mem_cons] at hmem
          rcases hmem with rfl | hmem
          · exact hv
          · exact (ih1 v hmem).trans hst
        · simp only [runCache]
          exact ih2.trans hst
      | .fail =>
        obtain ⟨ih1, ih2⟩ := ih (fetchFail st) hrest
        constructor
        · intro v hmem
          simp only [runCache] at hmem
          exact (ih1 v hmem).trans (fetchFail_dataOr pl st)
        · simp only [runCache]
          exact ih2.trans (fetchFail_dataOr pl st)
      | .complete now v =>
        have := hnc (.complete now v) (List.mem_cons_self _ _)
        simp [isCompleteOp] at this

/-- Witness for C5: a key holding 42 keeps serving 42 through three stale
gets interleaved with three probe failures. -/
theorem C5_failure_keeps_last_value_witness :
    cacheDataOr (0 : Int) (runCache (0 : Int) 1000
      (some { time := 0, data := 42, refreshing := false }) c5Ops).1 = 42 := by
  have h := ((C5_failure_keeps_last_value (0 : Int) 1000).2
    (some { time := 0, data := 42, refreshing := false }) c5Ops (by decide)).2
  simpa [cacheDataOr] using h

/-- **C7.** Every append is followed by a prune against the 30-day
retention window: after `appendSample` completes, every record left in
the store is at most 30 days old at the time of the append, and any
record older than that — including a synthetic sample inserted with a
manipulated old timestamp — is gone.  (Queries read only the store, so a
pruned record cannot appear in any subsequent query.) -/
theorem C7_retention_prune (store : List HistorySample) (s : HistorySample)
    (now : Int) :
    (∀ x ∈ appendSample store s now, now - HISTORY_MAX_AGE ≤ x.ts) ∧
    (∀ old : HistorySample, old.ts < now - HISTORY_MAX_AGE →
      old ∉ appendSample store s now) := by
  constructor
  · intro x hx
    have := List.of_mem_filter hx
    simpa using this
  · intro old hold hmem
    have := List.of_mem_filter hmem
    simp only [decide_eq_true_eq] at this
    omega

/-- Witness for C7: a synthetic sample with timestamp 0 is pruned by the
append that happens at `now = HISTORY_MAX_AGE + 1`. -/
theorem C7_retention_prune_witness :
    ({ ts := 0, cpu := 1, ram := 2, disk := 3, netUp := 4, netDown := 5 } :
        HistorySample) ∉
      appendSample
        [{ ts := 0, cpu := 1, ram := 2, disk := 3, netUp := 4, netDown := 5 }]
        { ts := HISTORY_MAX_AGE + 1, cpu := 0, ram := 0, disk := 0, netUp := 0, netDown := 0 }
        (HISTORY_MAX_AGE + 1) :=
  (C7_retention_prune _ _ _).2 _ (by norm_num [HISTORY_MAX_AGE])

/-- **C8 (as claimed) is false**: the collector stores the *raw cumulative*
interface counters, not per-second rates.  Concretely, with the previous
reading `{rx 400, tx 900}` taken one second before the current reading
`{rx 500, tx 1000}`, the upload rate at the tick is 100 B/s, yet the
appended sample records `netUp = 1000` (the cumulative `tx` counter). -/
theorem C8_rate_claim_counterexample :
    (mkHistorySample 2000 (some 10) (some 20) (some 30)
        (some { rx := 500, tx := 1000 })).netUp = 1000 ∧
    (netRate { rx := 400, tx := 900 } { rx := 500, tx := 1000 } 1000).1 = 100 ∧
    (1000 : ℚ) ≠ (100 : Int) := by
  refine ⟨rfl, by norm_num [netRate, jsRound], by norm_num⟩

/-- **C8 (amended).** Every sample appended by the history sampler records
`netUp`/`netDown` as the raw cumulative transmit/receive byte counters of
the network interface at the sampling tick (`0` when the interface could
not be read) — not as per-second rates. -/
theorem C8_net_fields_are_counters (now : Int) (cpu ram disk : Option ℚ)
    (net : NetStats) :
    (mkHistorySample now cpu ram disk (some net)).netUp = (net.tx : ℚ) ∧
    (mkHistorySample now cpu ram disk (some net)).netDown = (net.rx : ℚ) ∧
    (mkHistorySample now cpu ram disk none).netUp = 0 ∧
    (mkHistorySample now cpu ram disk none).netDown = 0 :=
  ⟨rfl, rfl, rfl, rfl⟩

/-- **C9.** The history query fails with the validation error exactly when
the metric is unknown — independently of the store, i.e. before it is
read — and a known metric queried against an empty store yields `ok []`,
not an error. -/
theorem C9_validation_and_empty_store (metric : String) (hours now : Int) :
    (metric ∉ validMetrics →
      ∀ store : List HistorySample,
        queryHistory store metric hours now =
          .error ("Invalid metric. Use: " ++ String.intercalate ", " validMetrics)) ∧
    (metric ∈ validMetrics →
      queryHistory [] metric hours now = .ok []) ∧
    (∀ store store' : List HistorySample, metric ∉ validMetrics →
      queryHistory store metric hours now = queryHistory store' metric hours now) := by
  refine ⟨?_, ?_, ?_⟩
  · intro hm store
    simp [queryHistory, hm]
  · intro hm
    simp [queryHistory, hm, windowSamples, List.mergeSort_nil]
  · intro store store' hm
    simp [queryHistory, hm]

/-- Witness for C9: `bogus` is rejected with the exact error string on a
non-empty store, and `cpu` on the empty store returns `ok []`. -/
theorem C9_validation_and_empty_store_witness :
    queryHistory [{ ts := 0, cpu := 1, ram := 2, disk := 3, netUp := 4, netDown := 5 }]
        "bogus" 24 1000000 =
      .error "Invalid metric. Use: cpu, ram, disk, netUp, netDown" ∧
    queryHistory [] "cpu" 24 1000000 = .ok [] :=
  ⟨(C9_validation_and_empty_store "bogus" 24 1000000).1 (by decide) _,
   (C9_validation_and_empty_store "cpu" 24 1000000).2.1 (by decide)⟩

/-- Helper: JS `Math.round` is within half a unit of its argument. -/
lemma jsRound_close (q : ℚ) : |((jsRound q : Int) : ℚ) - q| ≤ 1 / 2 := by
  rw [jsRound, abs_le]
  constructor
  · have h := Int.lt_floor_add_one (q + 1 / 2)
    push_cast at h ⊢
    linarith
  · have h := Int.floor_le (q + 1 / 2)
    push_cast at h ⊢
    linarith

/-- Helper: the reported bucket value is within rounding tolerance (one
twentieth) of the true bucket mean. -/
lemma bucketValue_close (metric : String) (xs : List HistorySample) :
    |bucketValue metric xs -
      (xs.map (sampleValue metric)).sum / (xs.length : ℚ)| ≤ 1 / 20 := by
  have h := jsRound_close ((xs.map (sampleValue metric)).sum / (xs.length : ℚ) * 10)
  rw [bucketValue]
  set m : ℚ := (xs.map (sampleValue metric)).sum / (xs.length : ℚ) with hm
  have heq : (jsRound (m * 10) : ℚ) / 10 - m = ((jsRound (m * 10) : ℚ) - m * 10) / 10 := by
    ring
  rw [heq, abs_div]
  rw [show |(10 : ℚ)| = 10 from by norm_num]
  linarith

/-- **C6.** For a known metric, the history query returns one averaged
value per non-empty bucket of in-window samples (`ts ≥ now - hours`),
reported at the bucket midpoint, within 1/20 of the true bucket mean,
strictly ordered by time, with no duplicate buckets; bucket width is
5 minutes for `hours ≤ 24`, 1 hour for `hours ≤ 168` and 4 hours beyond. -/
theorem C6_bucketed_query (store : List HistorySample) (metric : String)
    (hours now : Int) (hm : metric ∈ validMetrics) :
    ∃ res : List (Int × ℚ),
      queryHistory store metric hours now = .ok res ∧
      res.Pairwise (fun p q => p.1 < q.1) ∧
      (∀ p ∈ res, ∃ b : Int,
        p.1 = b + bucketMs hours / 2 ∧
        bucketSamples store hours now b ≠ [] ∧
        (∀ s ∈ bucketSamples store hours now b,
          now - hours * 60 * 60 * 1000 ≤ s.ts ∧
          bucketOf s.ts (bucketMs hours) = b) ∧
        p.2 = bucketValue metric (bucketSamples store hours now b) ∧
        |p.2 - ((bucketSamples store hours now b).map (sampleValue metric)).sum /
            ((bucketSamples store hours now b).length : ℚ)| ≤ 1 / 20) ∧
      (∀ s ∈ store, now - hours * 60 * 60 * 1000 ≤ s.ts →
        bucketOf s.ts (bucketMs hours) + bucketMs hours / 2 ∈ res.map Prod.fst) ∧
      (res.map Prod.fst).Nodup ∧
      (hours ≤ 24 → bucketMs hours = 5 * 60 * 1000) ∧
      (24 < hours ∧ hours ≤ 168 → bucketMs hours = 60 * 60 * 1000) ∧
      (168 < hours → bucketMs hours = 4 * 60 * 60 * 1000) := by
  classical
  set bms := bucketMs hours with hbms
  set keys :=
    (((windowSamples store hours now).map fun s => bucketOf s.ts bms).dedup).mergeSort
    with hkeys
  have hnd : keys.Nodup :=
    ((List.mergeSort_perm _ _).nodup_iff).mpr (List.nodup_dedup _)
  have hsorted : keys.Sorted (· ≤ ·) := List.sorted_mergeSort' _
  have hslt : keys.Sorted (· < ·) := hsorted.lt_of_le hnd
  have hkeymem : ∀ b : Int, b ∈ keys ↔
      b ∈ (windowSamples store hours now).map fun s => bucketOf s.ts bms := by
    intro b
    rw [hkeys, (List.mergeSort_perm _ _).mem_iff, List.mem_dedup]
  refine ⟨keys.map fun b => (b + bms / 2, bucketValue metric (bucketSamples store hours now b)),
    ?_, ?_, ?_, ?_, ?_, ?_, ?_, ?_⟩
  · simp only [queryHistory, hm, not_true_eq_false, if_neg, not_false_iff]
  · exact List.pairwise_map.mpr (hslt.imp fun hab => by
      simpa using add_lt_add_right hab (bms / 2))
  · intro p hp
    rw [List.mem_map] at hp
    obtain ⟨b, hb, rfl⟩ := hp
    obtain ⟨s, hs, hbs⟩ := List.mem_map.mp ((hkeymem b).mp hb)
    have hsbucket : s ∈ bucketSamples store hours now b := by
      rw [bucketSamples]
      exact List.mem_filter.mpr ⟨hs, by simp [hbs]⟩
    refine ⟨b, rfl, List.ne_nil_of_mem hsbucket, ?_, rfl, bucketValue_close _ _⟩
    intro x hx
    have hx2 := List.mem_filter.mp hx
    have hx3 := List.mem_filter.mp hx2.1
    exact ⟨by simpa using hx3.2, by simpa using hx2.2⟩
  · intro s hs hcut
    have hsw : s ∈ windowSamples store hours now := by
      rw [windowSamples]
      exact List.mem_filter.mpr ⟨hs, by simpa using hcut⟩
    have hbk : bucketOf s.ts bms ∈ keys :=
      (hkeymem _).mpr (List.mem_map_of_mem _ hsw)
    have : (bucketOf s.ts bms + bms / 2,
        bucketValue metric (bucketSamples store hours now (bucketOf s.ts bms))) ∈
        keys.map fun b => (b + bms / 2, bucketValue metric (bucketSamples store hours now b)) :=
      List.mem_map_of_mem _ hbk
    exact List.mem_map.mpr ⟨_, this, rfl⟩
  · have heq : (keys.map fun b =>
        (b + bms / 2, bucketValue metric (bucketSamples store hours now b))).map Prod.fst =
        keys.map fun b => b + bms / 2 := by
      rw [List.map_map]; rfl
    rw [heq]
    exact hnd.map fun a b hab => by omega
  · intro h; rw [hbms]; simp [bucketMs, h]
  · rintro ⟨h1, h2⟩
    rw [hbms]
    unfold bucketMs
    rw [if_neg (by omega), if_pos h2]
  · intro h
    rw [hbms]
    unfold bucketMs
    rw [if_neg (by omega), if_neg (by omega)]

/-- Witness for C6 at a concrete store of three samples queried over a
24-hour window. -/
theorem C6_bucketed_query_witness :
    (queryHistory c6Store "cpu" 24 1000000).isOk = true ∧
    bucketMs 24 = 5 * 60 * 1000 := by
  obtain ⟨res, hres, hrest⟩ := C6_bucketed_query c6Store "cpu" 24 1000000 (by decide)
  exact ⟨by rw [hres]; rfl, hrest.2.2.2.2.1 (by norm_num)⟩

/-- Helper: closing an entry never changes the buffer's length. -/
lemma closeEntry_length (h : List HistoryEntry) (i : Nat) (now : Int) :
    (closeEntry h i now).length = h.length := by
  induction h with
  | nil => rfl
  | cons e rest ih =>
    rw [closeEntry]
    split_ifs <;> simp [ih]

/-- Helper: `pushHistory` is an unshift truncated to 20 entries. -/
lemma pushHistory_eq_take (h : List HistoryEntry) (e : HistoryEntry) :
    pushHistory h e = (e :: h).take 20 := by
  rw [pushHistory]
  split_ifs with hlen
  · rfl
  · exact (List.take_of_length_le (by omega)).symm

/-- Helper: pushing keeps the buffer within its capacity. -/
lemma pushHistory_length_le (h : List HistoryEntry) (e : HistoryEntry) :
    (pushHistory h e).length ≤ 20 := by
  rw [pushHistory_eq_take]
  simp [List.length_take]

/-- Helper: one step keeps the buffer within its capacity. -/
lemma stepRule_hist_length (rule : Rule) (i : Nat) (st : RuleState)
    (hist : List HistoryEntry) (trig : Bool) (now cd : Int)
    (hh : hist.length ≤ 20) :
    ((stepRule rule i st hist trig now cd).2.1).length ≤ 20 := by
  simp only [stepRule]
  split_ifs <;> simp_all [closeEntry_length, pushHistory_length_le]

/-- Helper: a whole tick keeps the buffer within its capacity. -/
lemma tickFrom_hist_length (snap : Option MetricSnapshot) (now cd : Int) :
    ∀ (rules : List Rule) (start : Nat) (σ : Nat → RuleState)
      (h : List HistoryEntry), h.length ≤ 20 →
      ((tickFrom snap now cd rules start σ h).2.1).length ≤ 20 := by
  intro rules
  induction rules with
  | nil => intro start σ h hh; simpa [tickFrom] using hh
  | cons rule rest ih =>
    intro start σ h hh
    simp only [tickFrom]
    exact ih (start + 1) _ _
      (stepRule_hist_length rule start (σ start) h (evaluateRule rule snap) now cd hh)

/-- Helper: the capacity invariant holds in every reachable worker state. -/
lemma reachable_history_le (ws : WorkerState) (h : ReachableWorker ws) :
    ws.history.length ≤ 20 := by
  induction h with
  | init => simp [initWorker]
  | step rules snap now cd ws hws ih =>
    simp only [tick]
    exact tickFrom_hist_length snap now cd rules 0 ws.states ws.history ih

/-- Helper: when the buffer holds no entry for rule `i`, resolving rule `i`
closes nothing. -/
lemma closeEntry_eq_of_no_entry (h : List HistoryEntry) (i : Nat) (now : Int)
    (hno : ∀ e ∈ h, e.ruleIndex ≠ i) : closeEntry h i now = h := by
  induction h with
  | nil => rfl
  | cons e rest ih =>
    rw [closeEntry, if_neg, ih]
    · intro x hx; exact hno x (List.mem_cons_of_mem _ hx)
    · intro hc
      exact hno e (List.mem_cons_self _ _) hc.1

/-- Helper: truncating the right summand first does not change a truncated
append. -/
lemma take_append_take {α : Type} (a b : List α) (n : Nat) :
    (a ++ b.take n).take n = (a ++ b).take n := by
  rw [List.take_append_eq_append_take, List.take_take, List.take_append_eq_append_take]
  congr 2
  omega

/-- Helper: a run of pushes acts as truncated prepends. -/
lemma foldl_pushHistory (es : List HistoryEntry) :
    ∀ h : List HistoryEntry, h.length ≤ 20 →
      List.foldl pushHistory h es = (es.reverse ++ h).take 20 := by
  induction es with
  | nil =>
    intro h hh
    simpa using (List.take_of_length_le hh).symm
  | cons e rest ih =>
    intro h hh
    rw [List.foldl_cons, pushHistory_eq_take,
      ih _ (by simp [List.length_take]), take_append_take]
    congr 1
    simp

/-- Helper: twenty pushes flush the buffer entirely: only the pushed
entries remain (newest first). -/
lemma foldl_pushHistory_twenty (es h : List HistoryEntry)
    (hh : h.length ≤ 20) (hes : es.length = 20) :
    List.foldl pushHistory h es = es.reverse := by
  rw [foldl_pushHistory es h hh]
  have hrev : es.reverse.length = 20 := by simpa using hes
  rw [← hrev, List.take_left]

/-- **C10.** In every reachable worker state the alert-status read derives
both lists from the single bounded ring buffer: the buffer holds at most
20 entries, the reported history is the whole buffer, every active entry
is also a history entry, both lists have at most 20 entries; once no
entry for a rule remains in the buffer (e.g. evicted by newer fires) the
rule appears in no active list — regardless of its state-machine status —
and its later resolution closes no history entry; and 20 fires evict
everything that came before. -/
theorem C10_alert_status_ring_buffer (ws : WorkerState)
    (hws : ReachableWorker ws) :
    ws.history.length ≤ 20 ∧
    alertsStatusHistory ws = ws.history ∧
    (∀ e ∈ activeAlerts ws, e ∈ alertsStatusHistory ws) ∧
    (activeAlerts ws).length ≤ 20 ∧
    (alertsStatusHistory ws).length ≤ 20 ∧
    (∀ i : Nat, (∀ e ∈ ws.history, e.ruleIndex ≠ i) →
      (∀ e ∈ activeAlerts ws, e.ruleIndex ≠ i) ∧
      ∀ now : Int, closeEntry ws.history i now = ws.history) ∧
    (∀ es : List HistoryEntry, es.length = 20 →
      List.foldl pushHistory ws.history es = es.reverse) := by
  have hlen : ws.history.length ≤ 20 := reachable_history_le ws hws
  have htake : alertsStatusHistory ws = ws.history :=
    List.take_of_length_le hlen
  refine ⟨hlen, htake, ?_, ?_, ?_, ?_, ?_⟩
  · intro e he
    rw [htake]
    exact List.mem_of_mem_filter he
  · calc (activeAlerts ws).length ≤ ws.history.length := List.length_filter_le _ _
      _ ≤ 20 := hlen
  · rw [htake]; exact hlen
  · intro i hno
    refine ⟨?_, ?_⟩
    · intro e he
      exact hno e (List.mem_of_mem_filter he)
    · intro now
      exact closeEntry_eq_of_no_entry ws.history i now hno
  · intro es hes
    exact foldl_pushHistory_twenty es ws.history hlen hes

/-- Witness for C10 at the reachable state after one tick in which the
`db` service-down rule fires: the buffer holds one entry, and resolving a
rule with no buffer entry (index 5) changes nothing. -/
theorem C10_alert_status_ring_buffer_witness :
    (tick [svcRule] (some snapSvcDown) 0 900000 initWorker).1.history.length ≤ 20 ∧
    closeEntry (tick [svcRule] (some snapSvcDown) 0 900000 initWorker).1.history 5 777 =
      (tick [svcRule] (some snapSvcDown) 0 900000 initWorker).1.history := by
  have h := C10_alert_status_ring_buffer _
    (ReachableWorker.step [svcRule] (some snapSvcDown) 0 900000 initWorker
      ReachableWorker.init)
  exact ⟨h.1, (h.2.2.2.2.2.1 5 (by decide)).2 777⟩

end Pulse
